import Mathlib

/-!
Verification of the bounded concurrent classification pipeline of
`src/ScannerApp.py`: the retrying request client `safe_post`
(lines 77-89), the per-item classifier `check_software_risk_async`
(lines 91-116), the dispatcher/emitter `AsyncWorker.async_run`
(lines 133-141) and the admission gate (`asyncio.Semaphore`, line 134).

The remote service and `json.loads` are the external world; they are
modelled as explicit oracles (`oracle : ℕ → AttemptOutcome` gives the
outcome of the k-th POST attempt, `loads : String → Option Json` gives
the result of `json.loads`, `none` standing for a raised exception).
Everything else is translated statement by statement from the source.
-/

namespace ScannerApp

/-- CONFIG constant of ScannerApp.py line 18. -/
def MAX_CONCURRENT_REQUESTS : ℕ := 5

/-- CONFIG constant of ScannerApp.py line 19. -/
def RETRY_DELAY : ℕ := 5

/-- CONFIG constant of ScannerApp.py line 20. -/
def MAX_RETRIES : ℕ := 3

/-- Values produced by `json.loads`: the JSON data model. -/
inductive Json where
  | null
  | bool (b : Bool)
  | num (n : Int)
  | str (s : String)
  | arr (elts : List Json)
  | obj (fields : List (String × Json))

/-- Python dict lookup on the field list of a JSON object
(`json.loads` produces duplicate-free dicts, so first match is fine). -/
def lookupField : List (String × Json) → String → Option Json
  | [], _ => none
  | (k, v) :: rest, key => if k = key then some v else lookupField rest key

/-- Python subscript `j[key]`; `none` models the raised
`KeyError` / `TypeError` when `j` is not a dict with that key. -/
def getField : Json → String → Option Json
  | Json.obj fields, key => lookupField fields key
  | _, _ => none

/-- Python subscript `j[0]`; `none` models the raised
`IndexError` / `TypeError` when `j` is not a non-empty list. -/
def getHead : Json → Option Json
  | Json.arr (x :: _) => some x
  | _ => none

/-- Passing `j` to `json.loads` requires a string (else `TypeError`). -/
def asString : Json → Option String
  | Json.str s => some s
  | _ => none

/-- Outcome of one POST attempt as observed inside the try-block of
`safe_post` (lines 80-86): either an exception raised by
`session.post` / `resp.text()` (any transport-level failure), or an
HTTP response with its status code and body text. -/
inductive AttemptOutcome where
  | exn
  | status (code : ℕ) (body : String)
deriving DecidableEq, Repr

/-- Observable actions of `safe_post`: a POST attempt (1-based counter)
or an `asyncio.sleep` with its duration. -/
inductive PostEvent where
  | attempt (k : ℕ)
  | sleep (duration : ℕ)
deriving DecidableEq, Repr

/-- An attempt outcome that consumes a retry in `safe_post`:
a transport exception or HTTP 429. -/
def retryable : AttemptOutcome → Bool
  | AttemptOutcome.exn => true
  | AttemptOutcome.status code _ => code == 429

/-- The `for attempt in range(retries)` loop of `safe_post`
(lines 79-89), with `attempt` the 0-based loop variable and `fuel` the
remaining number of iterations (initially `retries`).  Returns the
Python return value (status-or-None, text) together with the ordered
trace of POST attempts (1-based) and backoff sleeps.
Line by line: a 429 sleeps `delay * (attempt + 1)` and continues
(lines 82-84); any other status returns `(resp.status, text)` at once
(lines 85-86); an exception sleeps `delay * (attempt + 1)` and moves to
the next iteration (lines 87-88); a completed loop returns
`(None, "Max retries exceeded")` (line 89). -/
def safe_post_from (oracle : ℕ → AttemptOutcome) (delay attempt : ℕ) :
    ℕ → (Option ℕ × String) × List PostEvent
  | 0 => ((none, "Max retries exceeded"), [])
  | fuel + 1 =>
    match oracle attempt with
    | AttemptOutcome.exn =>
        let rest := safe_post_from oracle delay (attempt + 1) fuel
        (rest.1, PostEvent.attempt (attempt + 1) ::
          PostEvent.sleep (delay * (attempt + 1)) :: rest.2)
    | AttemptOutcome.status code body =>
        if code = 429 then
          let rest := safe_post_from oracle delay (attempt + 1) fuel
          (rest.1, PostEvent.attempt (attempt + 1) ::
            PostEvent.sleep (delay * (attempt + 1)) :: rest.2)
        else ((some code, body), [PostEvent.attempt (attempt + 1)])

/-- `safe_post(session, payload, headers, retries, delay)`
(lines 77-89). -/
def safe_post (oracle : ℕ → AttemptOutcome) (delay retries : ℕ) :
    (Option ℕ × String) × List PostEvent :=
  safe_post_from oracle delay 0 retries

/-- The envelope navigation of line 108,
`data['choices'][0]['message']['content']`, where `data` is the outer
`json.loads` of the body; `none` models any raised exception along the
chain (outer parse failure, missing key, wrong shape, non-string
content). -/
def envelopeContent (loads : String → Option Json) (text_response : String) :
    Option String := do
  let data ← loads text_response
  let choices ← getField data "choices"
  let c0 ← getHead choices
  let message ← getField c0 "message"
  let content ← getField message "content"
  asString content

/-- The try-block of `check_software_risk_async` (lines 106-111):
envelope navigation, inner `json.loads`, then
`result.get("safety", "UNKNOWN")` and `result.get("rca", "")`; `none`
means the except-branch of lines 112-114 is taken. -/
def parse_block (loads : String → Option Json) (text_response : String) :
    Option (Json × Json) := do
  let text ← envelopeContent loads text_response
  let result ← loads text
  match result with
  | Json.obj fields =>
      some ((lookupField fields "safety").getD (Json.str "UNKNOWN"),
            (lookupField fields "rca").getD (Json.str ""))
  | _ => none

/-- Lines 106-116: the parse stage of `check_software_risk_async`
including its except-branch fallback
`("UNKNOWN", "Could not parse response")`. -/
def parse_response (loads : String → Option Json) (text_response : String) :
    Json × Json :=
  match parse_block loads text_response with
  | some sr => sr
  | none => (Json.str "UNKNOWN", Json.str "Could not parse response")

/-- `check_software_risk_async(session, software_name, api_key, semaphore)`
(lines 91-116).  The semaphore only sequences execution (it is modelled
separately as the admission-gate transition system below) and the
prompt/headers/payload only feed the remote service, which is the
oracle; the returned classification value and the POST/sleep trace are
produced exactly as in lines 101-116: call `safe_post` with the default
`retries`/`delay` (line 102), return
`(software_name, "UNKNOWN", "Error fetching data")` on any non-200
status including `None` (lines 103-104), otherwise parse the body
(lines 106-116). -/
def check_software_risk_async (loads : String → Option Json)
    (oracle : ℕ → AttemptOutcome) (software_name : String) :
    (String × Json × Json) × List PostEvent :=
  match safe_post oracle RETRY_DELAY MAX_RETRIES with
  | ((status, text_response), events) =>
    if status ≠ some 200 then
      ((software_name, Json.str "UNKNOWN", Json.str "Error fetching data"), events)
    else
      ((software_name, (parse_response loads text_response).1,
        (parse_response loads text_response).2), events)

/-! Exact model of the IEEE-754 binary64 arithmetic used on line 140,
`progress_percent = int((i+1)/len(self.software_list)*100)`.  Python
evaluates `(i+1)/N` as correctly rounded double true-division of exact
integers, then multiplies by the exact double `100` with correct
rounding, then truncates with `int()`.  A positive binary64 value is
represented as a pair `(m, e) : ℕ × ℤ` of mantissa and exponent with
value `m * 2^(e-52)`; rounding is round-to-nearest, ties to even, which
for results inside the normal range is exactly the IEEE behaviour.
Everything is computed in plain `ℕ` arithmetic. -/

/-- Fuel-driven binary logarithm: `log2fuel fuel n = ⌊log2 n⌋`
whenever `1 ≤ n ≤ fuel`. -/
def log2fuel : ℕ → ℕ → ℕ
  | 0, _ => 0
  | fuel + 1, n => if n ≤ 1 then 0 else log2fuel fuel (n / 2) + 1

/-- Floor of the binary logarithm (`natLog2 n = ⌊log2 n⌋` for `n ≥ 1`). -/
def natLog2 (n : ℕ) : ℕ := log2fuel n n

/-- The exponent `e` with `2^e ≤ n/d < 2^(e+1)`, for `n, d ≥ 1`. -/
def qExpND (n d : ℕ) : ℤ :=
  let e0 : ℤ := (natLog2 n : ℤ) - (natLog2 d : ℤ)
  if d * 2 ^ e0.toNat ≤ n * 2 ^ (-e0).toNat then e0 else e0 - 1

/-- Round the rational `A / B` (with `B ≥ 1`) to the nearest integer,
ties to even. -/
def nearEven (A B : ℕ) : ℕ :=
  let q := A / B
  let r := A % B
  if 2 * r < B then q
  else if B < 2 * r then q + 1
  else if q % 2 = 0 then q else q + 1

/-- Round the positive rational `n / d` to 53 significant bits
(round-to-nearest, ties to even): the returned `(m, e)` has value
`m * 2^(e-52)`, the binary64 value of the exact quotient for results
in the normal range. -/
def rnd53 (n d : ℕ) : ℕ × ℤ :=
  let e := qExpND n d
  (nearEven (n * 2 ^ (52 - e).toNat) (d * 2 ^ (e - 52).toNat), e)

/-- The rational value of a represented binary64 number. -/
def repVal (me : ℕ × ℤ) : ℚ := (me.1 : ℚ) * (2 : ℚ) ^ (me.2 - 52)

/-- Python float true-division `a / b` of nonnegative ints
(correctly rounded binary64). -/
def pyDivRep (a b : ℕ) : ℕ × ℤ := rnd53 a b

/-- Multiplication of a binary64 value by the exact small integer `c`
(correctly rounded binary64); the product `m * c * 2^(e-52)` is fed to
the rounder as an exact fraction. -/
def pyMulIntRep (me : ℕ × ℤ) (c : ℕ) : ℕ × ℤ :=
  rnd53 (me.1 * c * 2 ^ (me.2 - 52).toNat) (2 ^ (52 - me.2).toNat)

/-- Python `int()` of a nonnegative binary64 value (truncation). -/
def pyTruncRep (me : ℕ × ℤ) : ℕ :=
  me.1 * 2 ^ (me.2 - 52).toNat / 2 ^ (52 - me.2).toNat

/-- Line 140, `int((i+1)/len(self.software_list)*100)` as Python
evaluates it in binary64, with `k = i+1` and `total` the batch size. -/
def progress_py (k total : ℕ) : ℕ :=
  pyTruncRep (pyMulIntRep (pyDivRep k total) 100)

/-! The dispatcher/emitter `AsyncWorker.async_run` (lines 133-141).
`tasks[p]` is `check_software_risk_async` for item `p` of
`software_list` (line 136); `asyncio.as_completed(tasks)` yields the
tasks in completion order, modelled by the list `order` of task
positions (a permutation of `range N` for a batch of `N` items); the
`for i, task in enumerate(...)` loop emits `update_row(i, safety, rca)`
with `i` the completion counter (line 139) and then
`progress(int((i+1)/N*100))` (lines 140-141). -/

/-- The sequence of `update_row` emissions of one `async_run` call:
`loads` and the per-item attempt oracles `oracleFam` fix each task's
classification value, `order` is the completion order. -/
def async_run_update_rows (loads : String → Option Json)
    (oracleFam : ℕ → ℕ → AttemptOutcome) (software_list : List String)
    (order : List ℕ) : List (ℕ × Json × Json) :=
  order.enum.map (fun ip =>
    (ip.1,
     (check_software_risk_async loads (oracleFam ip.2) (software_list.getD ip.2 "")).1.2.1,
     (check_software_risk_async loads (oracleFam ip.2) (software_list.getD ip.2 "")).1.2.2))

/-- The sequence of `progress` emissions of one `async_run` call over a
batch of `total` items (lines 140-141); the value after the
`(i+1)`-st completion is `int((i+1)/total*100)` in binary64 and does
not depend on the completion order. -/
def async_run_progress (total : ℕ) : List ℕ :=
  (List.range total).map (fun i => progress_py (i + 1) total)

/-! Exception-level model.  To settle that the classifier never raises
past its boundary, the same source lines are rendered a second time in
the `Except` monad, where every Python operation that can raise is
explicit (`PyEx` is the raised exception) and each `try/except` of the
source is an explicit catch; the bridge theorem below proves this
rendering always returns `Except.ok` and agrees with
`check_software_risk_async`. -/

/-- Exceptions of the Python code: transport-level
(`aiohttp` / timeout) and parse-level (`json.loads`, subscripts,
`.get` on a non-dict). -/
inductive PyEx where
  | transport
  | parse
deriving DecidableEq, Repr

/-- One `session.post(...)` + `resp.text()` in the exception model. -/
def postAttemptE (oracle : ℕ → AttemptOutcome) (k : ℕ) :
    Except PyEx (ℕ × String) :=
  match oracle k with
  | AttemptOutcome.exn => Except.error PyEx.transport
  | AttemptOutcome.status code body => Except.ok (code, body)

/-- The body of one iteration of the `safe_post` loop (lines 80-86):
`some result` is `return resp.status, text`, `none` is
`continue` after the 429 sleep. -/
def safe_post_bodyE (oracle : ℕ → AttemptOutcome) (attempt : ℕ) :
    Except PyEx (Option (Option ℕ × String)) := do
  let cb ← postAttemptE oracle attempt
  if cb.1 = 429 then pure none
  else pure (some (some cb.1, cb.2))

/-- The `safe_post` loop in the exception model; the
`Except.tryCatch` is the `try/except` of lines 80-88 (the except-branch
sleeps and moves to the next iteration). -/
def safe_postE_from (oracle : ℕ → AttemptOutcome) (attempt : ℕ) :
    ℕ → Except PyEx (Option ℕ × String)
  | 0 => Except.ok (none, "Max retries exceeded")
  | fuel + 1 =>
    match Except.tryCatch (safe_post_bodyE oracle attempt)
        (fun _ => pure none) with
    | Except.ok (some result) => Except.ok result
    | Except.ok none => safe_postE_from oracle (attempt + 1) fuel
    | Except.error e => Except.error e

/-- The envelope navigation of line 108 in the exception model. -/
def envelopeContentE (loads : String → Option Json) (text_response : String) :
    Except PyEx String :=
  match envelopeContent loads text_response with
  | some s => Except.ok s
  | none => Except.error PyEx.parse

/-- The try-block of lines 106-111 in the exception model. -/
def parse_blockE (loads : String → Option Json) (text_response : String) :
    Except PyEx (Json × Json) := do
  let text ← envelopeContentE loads text_response
  let result ← match loads text with
    | some j => Except.ok j
    | none => Except.error PyEx.parse
  match result with
  | Json.obj fields =>
      pure ((lookupField fields "safety").getD (Json.str "UNKNOWN"),
            (lookupField fields "rca").getD (Json.str ""))
  | _ => Except.error PyEx.parse

/-- `check_software_risk_async` in the exception model; the
`Except.tryCatch` is the `try/except` of lines 106-114. -/
def check_software_riskE (loads : String → Option Json)
    (oracle : ℕ → AttemptOutcome) (software_name : String) :
    Except PyEx (String × Json × Json) := do
  let st ← safe_postE_from oracle 0 MAX_RETRIES
  if st.1 ≠ some 200 then
    pure (software_name, Json.str "UNKNOWN", Json.str "Error fetching data")
  else
    let sr ← Except.tryCatch (parse_blockE loads st.2)
      (fun _ => pure (Json.str "UNKNOWN", Json.str "Could not parse response"))
    pure (software_name, sr.1, sr.2)

/-! Admission gate (lines 101, 134).  `asyncio.Semaphore(5)` guards the
whole body of `check_software_risk_async` (the `async with semaphore`
of line 101 encloses the `safe_post` call), so a task is performing
network I/O only while it holds the gate.  The scheduler is modelled as
a transition system over the tasks' phases: a `pending` task may
acquire the gate only when the counter is positive (becoming
`inflight`), and an `inflight` task releases it when its body finishes
(becoming `finished`).  All interleavings the asyncio event loop can
produce are runs of this system. -/

/-- Phase of one classification task with respect to the gate. -/
inductive TaskPhase where
  | pending
  | inflight
  | finished
deriving DecidableEq, Repr

/-- Scheduler state: the semaphore counter and the per-task phases. -/
structure DispatchState where
  avail : ℕ
  phases : List TaskPhase
deriving DecidableEq, Repr

/-- Start of a batch of `n` tasks under a gate of capacity `limit`
(line 134 with `limit = MAX_CONCURRENT_REQUESTS`). -/
def initState (n limit : ℕ) : DispatchState :=
  ⟨limit, List.replicate n TaskPhase.pending⟩

/-- Number of tasks currently holding the gate, i.e. performing their
network call. -/
def inflightCount (s : DispatchState) : ℕ :=
  s.phases.count TaskPhase.inflight

/-- One scheduler step: a pending task acquires the gate (possible only
when the counter is positive), or an in-flight task completes and
releases it. -/
inductive DStep : DispatchState → DispatchState → Prop where
  | acquire (a : ℕ) (l r : List TaskPhase) :
      DStep ⟨a + 1, l ++ TaskPhase.pending :: r⟩
            ⟨a, l ++ TaskPhase.inflight :: r⟩
  | release (a : ℕ) (l r : List TaskPhase) :
      DStep ⟨a, l ++ TaskPhase.inflight :: r⟩
            ⟨a + 1, l ++ TaskPhase.finished :: r⟩

/-- States the batch can reach from its start. -/
def ReachableState (n limit : ℕ) (s : DispatchState) : Prop :=
  Relation.ReflTransGen DStep (initState n limit) s

/-! Concrete fixtures used for counterexamples and witnesses. -/

/-- Trace of a run of consecutive retryable attempts starting at
0-based loop index `attempt`: each POST attempt is followed by its
backoff sleep. -/
def exhaustTrace (delay attempt : ℕ) : ℕ → List PostEvent
  | 0 => []
  | fuel + 1 => PostEvent.attempt (attempt + 1) ::
      PostEvent.sleep (delay * (attempt + 1)) :: exhaustTrace delay (attempt + 1) fuel

/-- A well-formed chat-completion envelope whose
`choices[0].message.content` is the string `inner`. -/
def demoEnvelope (inner : String) : Json :=
  Json.obj [("choices",
    Json.arr [Json.obj [("message", Json.obj [("content", Json.str inner)])]])]

/-- A concrete `json.loads` table: three well-formed replies for items
A, B, C; a reply whose inner object has no keys; and a reply whose
inner object carries a `safety` value that is neither SAFE nor
HARMFUL. -/
def demoLoads : String → Option Json := fun s =>
  if s = "bodyA" then some (demoEnvelope "innerA")
  else if s = "bodyB" then some (demoEnvelope "innerB")
  else if s = "bodyC" then some (demoEnvelope "innerC")
  else if s = "bodyEmpty" then some (demoEnvelope "innerEmpty")
  else if s = "bodyWeird" then some (demoEnvelope "innerWeird")
  else if s = "innerA" then
    some (Json.obj [("safety", Json.str "SAFE"), ("rca", Json.str "rca-A")])
  else if s = "innerB" then
    some (Json.obj [("safety", Json.str "SAFE"), ("rca", Json.str "rca-B")])
  else if s = "innerC" then
    some (Json.obj [("safety", Json.str "HARMFUL"), ("rca", Json.str "rca-C")])
  else if s = "innerEmpty" then some (Json.obj [])
  else if s = "innerWeird" then
    some (Json.obj [("safety", Json.str "MAYBE"), ("rca", Json.str "rca-W")])
  else none

/-- Per-item attempt oracles for a three-item batch [A, B, C]: every
item's first POST attempt succeeds with status 200 and that item's
body. -/
def demoOracleFam : ℕ → ℕ → AttemptOutcome := fun p _ =>
  AttemptOutcome.status 200 (["bodyA", "bodyB", "bodyC"].getD p "")

end ScannerApp

namespace ScannerApp

/-! Characterization of the `safe_post` retry loop. -/

/-- A run whose first `fuel` attempts are all retryable consumes them
all, sleeping after each one, and falls out of the loop with the
sentinel `(None, "Max retries exceeded")`. -/
theorem safe_post_from_exhaust (oracle : ℕ → AttemptOutcome) (delay : ℕ) :
    ∀ fuel attempt,
      (∀ k, attempt ≤ k → k < attempt + fuel → retryable (oracle k) = true) →
      safe_post_from oracle delay attempt fuel =
        ((none, "Max retries exceeded"), exhaustTrace delay attempt fuel) := by
  intro fuel
  induction fuel with
  | zero => intro attempt _; rfl
  | succ f ih =>
    intro attempt h
    have ha : retryable (oracle attempt) = true :=
      h attempt (Nat.le_refl _) (by omega)
    have hrest := ih (attempt + 1) (fun k hk1 hk2 => h k (by omega) (by omega))
    cases ho : oracle attempt with
    | exn =>
      simp only [safe_post_from, ho, exhaustTrace, hrest]
    | status code body =>
      have hc : code = 429 := by
        have := ha
        rw [retryable.eq_def, ho] at this
        simpa using this
      subst hc
      simp only [safe_post_from, ho, exhaustTrace, hrest, if_pos rfl, if_true]

/-- A run whose attempts are retryable up to (not including) loop
index `j`, where a response with a status other than 429 arrives,
returns that status and body right there: `j + 1` attempts in total,
a sleep after each of the `j` retryable ones and none after the
last. -/
theorem safe_post_from_stop (oracle : ℕ → AttemptOutcome) (delay : ℕ) :
    ∀ j fuel attempt (code : ℕ) (body : String),
      j < fuel →
      (∀ i, i < j → retryable (oracle (attempt + i)) = true) →
      oracle (attempt + j) = AttemptOutcome.status code body →
      code ≠ 429 →
      safe_post_from oracle delay attempt fuel =
        ((some code, body),
          exhaustTrace delay attempt j ++ [PostEvent.attempt (attempt + j + 1)]) := by
  intro j
  induction j with
  | zero =>
    intro fuel attempt code body hj _ ho hc
    match fuel, hj with
    | f + 1, _ =>
      rw [Nat.add_zero] at ho
      simp only [safe_post_from, ho, if_neg hc, exhaustTrace, List.nil_append]
  | succ n ih =>
    intro fuel attempt code body hj hr ho hc
    match fuel, hj with
    | f + 1, hj =>
      have h0 : retryable (oracle attempt) = true := by
        have := hr 0 (Nat.succ_pos n)
        simpa using this
      have hrest := ih f (attempt + 1) code body (by omega)
        (fun i hi => by
          have := hr (i + 1) (by omega)
          simpa [Nat.add_assoc, Nat.add_comm 1 i] using this)
        (by simpa [Nat.add_assoc, Nat.add_comm 1 n] using ho) hc
      have hgoal : attempt + 1 + n = attempt + (n + 1) := by omega
      cases hoa : oracle attempt with
      | exn =>
        simp only [safe_post_from, hoa, hrest, exhaustTrace, hgoal,
          List.cons_append]
      | status c0 b0 =>
        have hc0 : c0 = 429 := by
          have := h0
          rw [retryable.eq_def, hoa] at this
          simpa using this
        subst hc0
        simp only [safe_post_from, hoa, if_pos rfl, hrest, exhaustTrace,
          hgoal, List.cons_append, if_true]

end ScannerApp

namespace ScannerApp

/-- C4: for every HTTP status other than 429 obtained on any attempt
— the 0-based attempt index `j`, the `j` earlier attempts having been
the only retry-consuming kinds, transport failure or 429 — `safe_post`
returns that status and body immediately: the trace ends with attempt
`j + 1`, with no sleep after it and no further attempt, so only 429
and transport failure ever consume a retry; and when that terminal
status is also not 200 (a 500 included, `j = 0` being a first-attempt
500 with exactly one attempt made) the classification is
`(UNKNOWN, "Error fetching data")`. -/
theorem c4_non_429_status_is_terminal
    (oracle : ℕ → AttemptOutcome) (delay retries j code : ℕ) (body : String)
    (loads : String → Option Json) (software_name : String)
    (hj : j < retries)
    (hpre : ∀ i, i < j → retryable (oracle i) = true)
    (ho : oracle j = AttemptOutcome.status code body) (hc : code ≠ 429) :
    safe_post oracle delay retries =
      ((some code, body),
       exhaustTrace delay 0 j ++ [PostEvent.attempt (j + 1)])
    ∧ (j < MAX_RETRIES → code ≠ 200 →
        check_software_risk_async loads oracle software_name =
          ((software_name, Json.str "UNKNOWN", Json.str "Error fetching data"),
           exhaustTrace RETRY_DELAY 0 j ++ [PostEvent.attempt (j + 1)])) := by
  constructor
  · have := safe_post_from_stop oracle delay j retries 0 code body hj
      (fun i hi => by simpa using hpre i hi) (by simpa using ho) hc
    simpa [safe_post] using this
  · intro hjM h200
    have h2 : safe_post oracle RETRY_DELAY MAX_RETRIES =
        ((some code, body),
         exhaustTrace RETRY_DELAY 0 j ++ [PostEvent.attempt (j + 1)]) := by
      have := safe_post_from_stop oracle RETRY_DELAY j MAX_RETRIES 0 code body
        hjM (fun i hi => by simpa using hpre i hi) (by simpa using ho) hc
      simpa [safe_post] using this
    simp [check_software_risk_async, h2, h200]

/-- Witness for C4: a 500 obtained on the second attempt, after a 429
consumed the first, is terminal right there — two attempts, one sleep,
and the fetch-error classification. -/
theorem c4_non_429_status_is_terminal_witness :
    safe_post (fun k => if k = 0 then AttemptOutcome.status 429 ""
        else AttemptOutcome.status 500 "boom") 5 3 =
      ((some 500, "boom"),
       [PostEvent.attempt 1, PostEvent.sleep 5, PostEvent.attempt 2])
    ∧ check_software_risk_async (fun _ => none)
        (fun k => if k = 0 then AttemptOutcome.status 429 ""
          else AttemptOutcome.status 500 "boom") "itemA" =
      (("itemA", Json.str "UNKNOWN", Json.str "Error fetching data"),
       [PostEvent.attempt 1, PostEvent.sleep 5, PostEvent.attempt 2]) := by
  have h := c4_non_429_status_is_terminal
    (fun k => if k = 0 then AttemptOutcome.status 429 ""
      else AttemptOutcome.status 500 "boom") 5 3 1 500 "boom"
    (fun _ => none) "itemA" (by decide)
    (fun i hi => by
      have hi0 : i = 0 := by omega
      subst hi0
      rfl)
    rfl (by decide)
  exact ⟨h.1, h.2 (by decide) (by decide)⟩

/-- C5: for the response sequence [429, 429, 200] the client makes
exactly 3 attempts, sleeping `delay * 1` after the first 429 and
`delay * 2` after the second, and the classification is the one parsed
from the 200 response body. -/
theorem c5_rate_limited_twice_then_success
    (delay : ℕ) (body : String) (loads : String → Option Json)
    (software_name : String) :
    safe_post
        (fun k => if k ≤ 1 then AttemptOutcome.status 429 ""
                  else AttemptOutcome.status 200 body) delay 3 =
      ((some 200, body),
       [PostEvent.attempt 1, PostEvent.sleep (delay * 1),
        PostEvent.attempt 2, PostEvent.sleep (delay * 2),
        PostEvent.attempt 3])
    ∧ check_software_risk_async loads
        (fun k => if k ≤ 1 then AttemptOutcome.status 429 ""
                  else AttemptOutcome.status 200 body) software_name =
      ((software_name, (parse_response loads body).1,
        (parse_response loads body).2),
       [PostEvent.attempt 1, PostEvent.sleep (RETRY_DELAY * 1),
        PostEvent.attempt 2, PostEvent.sleep (RETRY_DELAY * 2),
        PostEvent.attempt 3]) :=
  ⟨rfl, rfl⟩

/-- C10: every retryable failure, a transport exception or a 429 on
the k-th attempt, is followed by a backoff sleep of `delay * k`,
including on the final allowed attempt: an exhausted call performs
exactly `MAX_RETRIES` attempts and `MAX_RETRIES` sleeps, the last
sleep coming after the last attempt with no further attempt before the
sentinel return; and a run that stops at the first non-retryable
status after j retryable failures slept exactly once after each of
those j failures. -/
theorem c10_backoff_after_every_retryable_failure
    (oracle : ℕ → AttemptOutcome) (delay : ℕ) :
    ((∀ k, k < MAX_RETRIES → retryable (oracle k) = true) →
      safe_post oracle delay MAX_RETRIES =
        ((none, "Max retries exceeded"),
         [PostEvent.attempt 1, PostEvent.sleep (delay * 1),
          PostEvent.attempt 2, PostEvent.sleep (delay * 2),
          PostEvent.attempt 3, PostEvent.sleep (delay * 3)]))
    ∧ (∀ j code body, j < MAX_RETRIES →
        (∀ i, i < j → retryable (oracle i) = true) →
        oracle j = AttemptOutcome.status code body → code ≠ 429 →
        safe_post oracle delay MAX_RETRIES =
          ((some code, body),
           exhaustTrace delay 0 j ++ [PostEvent.attempt (j + 1)])) := by
  constructor
  · intro h
    have := safe_post_from_exhaust oracle delay MAX_RETRIES 0
      (fun k _ hk2 => h k (by omega))
    simpa [safe_post, MAX_RETRIES, exhaustTrace] using this
  · intro j code body hj hr ho hc
    have := safe_post_from_stop oracle delay j MAX_RETRIES 0 code body hj
      (fun i hi => by simpa using hr i hi) (by simpa using ho) hc
    simpa [safe_post] using this

/-- Witness for C10: three consecutive transport failures sleep
`delay * 1`, `delay * 2`, `delay * 3` and exhaust. -/
theorem c10_backoff_after_every_retryable_failure_witness :
    safe_post (fun _ => AttemptOutcome.exn) 7 MAX_RETRIES =
      ((none, "Max retries exceeded"),
       [PostEvent.attempt 1, PostEvent.sleep 7, PostEvent.attempt 2,
        PostEvent.sleep 14, PostEvent.attempt 3, PostEvent.sleep 21]) :=
  (c10_backoff_after_every_retryable_failure (fun _ => AttemptOutcome.exn) 7).1
    (fun _ _ => rfl)

/-- C2, counterexample: after `MAX_RETRIES` consecutive transport
failures the classification the item receives is
`(UNKNOWN, "Error fetching data")`, not
`(UNKNOWN, "Max retries exceeded")` as claimed — `safe_post`'s
sentinel text is discarded by the `status != 200` branch of
line 103. -/
theorem c2_retries_exhausted_message_cex :
    (check_software_risk_async (fun _ => none)
        (fun _ => AttemptOutcome.exn) "itemA").1 =
      ("itemA", Json.str "UNKNOWN", Json.str "Error fetching data")
    ∧ Json.str "Error fetching data" ≠ Json.str "Max retries exceeded" := by
  constructor
  · rfl
  · intro h
    injection h with h'
    exact absurd h' (by decide)

/-- C2 as amended: after `MAX_RETRIES` consecutive retryable failures
`safe_post` itself returns the sentinel `(None, "Max retries exceeded")`
and no attempt beyond the `MAX_RETRIES`-th is made, but the
classification returned for the item is
`(UNKNOWN, "Error fetching data")`. -/
theorem c2_retries_exhausted_amended
    (loads : String → Option Json) (oracle : ℕ → AttemptOutcome)
    (software_name : String)
    (h : ∀ k, k < MAX_RETRIES → retryable (oracle k) = true) :
    (safe_post oracle RETRY_DELAY MAX_RETRIES).1 = (none, "Max retries exceeded")
    ∧ check_software_risk_async loads oracle software_name =
        ((software_name, Json.str "UNKNOWN", Json.str "Error fetching data"),
         exhaustTrace RETRY_DELAY 0 MAX_RETRIES)
    ∧ (∀ k, PostEvent.attempt k ∈
          (check_software_risk_async loads oracle software_name).2 →
        k ≤ MAX_RETRIES) := by
  have hsp := safe_post_from_exhaust oracle RETRY_DELAY MAX_RETRIES 0
    (fun k _ hk2 => h k (by omega))
  rw [safe_post_from_exhaust oracle RETRY_DELAY MAX_RETRIES 0
    (fun k _ hk2 => h k (by omega))] at hsp
  have hcheck : check_software_risk_async loads oracle software_name =
      ((software_name, Json.str "UNKNOWN", Json.str "Error fetching data"),
       exhaustTrace RETRY_DELAY 0 MAX_RETRIES) := by
    have hsp2 : safe_post oracle RETRY_DELAY MAX_RETRIES =
        ((none, "Max retries exceeded"), exhaustTrace RETRY_DELAY 0 MAX_RETRIES) :=
      safe_post_from_exhaust oracle RETRY_DELAY MAX_RETRIES 0
        (fun k _ hk2 => h k (by omega))
    simp [check_software_risk_async, hsp2]
  refine ⟨?_, hcheck, ?_⟩
  · rw [show safe_post oracle RETRY_DELAY MAX_RETRIES =
        ((none, "Max retries exceeded"), exhaustTrace RETRY_DELAY 0 MAX_RETRIES) from
      safe_post_from_exhaust oracle RETRY_DELAY MAX_RETRIES 0
        (fun k _ hk2 => h k (by omega))]
  · intro k hk
    rw [hcheck] at hk
    simp only [exhaustTrace, MAX_RETRIES, RETRY_DELAY, List.mem_cons,
      List.not_mem_nil, or_false] at hk
    show k ≤ 3
    rcases hk with h1 | h1 | h1 | h1 | h1 | h1 <;>
      first
        | (injection h1 with h2; omega)
        | injection h1

/-- Witness for C2's amended theorem at a concrete all-failures run. -/
theorem c2_retries_exhausted_amended_witness :
    (safe_post (fun _ => AttemptOutcome.exn) RETRY_DELAY MAX_RETRIES).1 =
      (none, "Max retries exceeded")
    ∧ check_software_risk_async (fun _ => none)
        (fun _ => AttemptOutcome.exn) "itemA" =
        (("itemA", Json.str "UNKNOWN", Json.str "Error fetching data"),
         exhaustTrace RETRY_DELAY 0 MAX_RETRIES) :=
  ⟨(c2_retries_exhausted_amended (fun _ => none) (fun _ => AttemptOutcome.exn)
      "itemA" (fun _ _ => rfl)).1,
   (c2_retries_exhausted_amended (fun _ => none) (fun _ => AttemptOutcome.exn)
      "itemA" (fun _ _ => rfl)).2.1⟩

end ScannerApp

namespace ScannerApp

/-- C3, counterexample: a well-formed envelope whose inner JSON object
parses but has neither a `safety` nor an `rca` key yields
`(UNKNOWN, "")`, not `(UNKNOWN, "Could not parse response")` as the
claim states for absent expected keys — `result.get` substitutes
defaults instead of raising. -/
theorem c3_parser_missing_keys_cex :
    parse_response demoLoads "bodyEmpty" = (Json.str "UNKNOWN", Json.str "")
    ∧ Json.str "" ≠ Json.str "Could not parse response"
    ∧ (check_software_risk_async demoLoads
        (fun _ => AttemptOutcome.status 200 "bodyEmpty") "itemA").1 =
        ("itemA", Json.str "UNKNOWN", Json.str "") := by
  refine ⟨rfl, ?_, rfl⟩
  intro h
  injection h with h'
  exact absurd h' (by decide)

/-- C3 as amended: the parse stage is total; an outer parse failure,
a failure anywhere along the envelope navigation
`data['choices'][0]['message']['content']` (missing envelope keys
included), an inner parse failure, or a non-object inner value all
yield `(UNKNOWN, "Could not parse response")`; an inner object lacking
the `safety` / `rca` keys yields the defaults `UNKNOWN` / `""`; a
`safety` value that is present is passed through unchanged, whatever
it is. -/
theorem c3_parser_contract_amended
    (loads : String → Option Json) (text_response : String) :
    (loads text_response = none →
      parse_response loads text_response =
        (Json.str "UNKNOWN", Json.str "Could not parse response"))
    ∧ (envelopeContent loads text_response = none →
      parse_response loads text_response =
        (Json.str "UNKNOWN", Json.str "Could not parse response"))
    ∧ (∀ text, envelopeContent loads text_response = some text →
        loads text = none →
        parse_response loads text_response =
          (Json.str "UNKNOWN", Json.str "Could not parse response"))
    ∧ (∀ text j, envelopeContent loads text_response = some text →
        loads text = some j → (∀ fields, j ≠ Json.obj fields) →
        parse_response loads text_response =
          (Json.str "UNKNOWN", Json.str "Could not parse response"))
    ∧ (∀ text fields, envelopeContent loads text_response = some text →
        loads text = some (Json.obj fields) →
        lookupField fields "safety" = none → lookupField fields "rca" = none →
        parse_response loads text_response = (Json.str "UNKNOWN", Json.str ""))
    ∧ (∀ text fields v, envelopeContent loads text_response = some text →
        loads text = some (Json.obj fields) →
        lookupField fields "safety" = some v →
        (parse_response loads text_response).1 = v) := by
  refine ⟨?_, ?_, ?_, ?_, ?_, ?_⟩
  · intro h
    have henv : envelopeContent loads text_response = none := by
      simp [envelopeContent, h]
    simp [parse_response, parse_block, henv]
  · intro henv
    simp [parse_response, parse_block, henv]
  · intro text henv hinner
    simp [parse_response, parse_block, henv, hinner]
  · intro text j henv hinner hnotobj
    cases j <;>
      simp_all [parse_response, parse_block, henv, hinner]
  · intro text fields henv hinner hs hr
    simp [parse_response, parse_block, henv, hinner, hs, hr]
  · intro text fields v henv hinner hs
    simp [parse_response, parse_block, henv, hinner, hs]

/-- Witness for C3's amended theorem: an unparseable body gives the
sentinel, and a present but unexpected safety value "MAYBE" is passed
through unchanged. -/
theorem c3_parser_contract_amended_witness :
    parse_response demoLoads "nonsense" =
      (Json.str "UNKNOWN", Json.str "Could not parse response")
    ∧ (parse_response demoLoads "bodyWeird").1 = Json.str "MAYBE" :=
  ⟨(c3_parser_contract_amended demoLoads "nonsense").1 rfl,
   (c3_parser_contract_amended demoLoads "bodyWeird").2.2.2.2.2 "innerWeird"
     [("safety", Json.str "MAYBE"), ("rca", Json.str "rca-W")]
     (Json.str "MAYBE") rfl rfl rfl⟩

/-- C1, failing run: for the batch [A, B, C] with completion order
C, A, B (the `asyncio.as_completed` order), line 139 emits
`update_row(i, ...)` with `i` the completion counter, so item C's
classification (HARMFUL, "rca-C") is emitted with `itemIndex 0`,
which is item A's identity; C's own index 2 instead receives item B's
classification — identity is derived from completion order, exactly
what the claim forbids. -/
theorem c1_completion_order_used_as_identity :
    async_run_update_rows demoLoads demoOracleFam ["A", "B", "C"] [2, 0, 1] =
      [(0, Json.str "HARMFUL", Json.str "rca-C"),
       (1, Json.str "SAFE", Json.str "rca-A"),
       (2, Json.str "SAFE", Json.str "rca-B")] := rfl

/-- C6: for every batch of N items and every completion order (any
permutation of the task positions), the emitter produces exactly N
`update_row` events whose emitted indices are exactly 0, ..., N-1 in
order — each index in [0, N) occurs exactly once, none is omitted. -/
theorem c6_emission_indices_cover_range
    (loads : String → Option Json) (oracleFam : ℕ → ℕ → AttemptOutcome)
    (software_list : List String) (order : List ℕ) (N : ℕ)
    (hperm : order.Perm (List.range N)) :
    (async_run_update_rows loads oracleFam software_list order).length = N
    ∧ (async_run_update_rows loads oracleFam software_list order).map Prod.fst
        = List.range N := by
  have hlen : order.length = N := by simpa using hperm.length_eq
  constructor
  · simp [async_run_update_rows, hlen]
  · have hmap : (async_run_update_rows loads oracleFam software_list order).map
        Prod.fst = List.range order.length := by
      unfold async_run_update_rows
      rw [List.map_map]
      exact List.enum_map_fst order
    rw [hmap, hlen]

/-- Witness for C6 on a three-item batch completing out of order. -/
theorem c6_emission_indices_cover_range_witness :
    (async_run_update_rows demoLoads demoOracleFam ["A", "B", "C"]
        [2, 0, 1]).length = 3
    ∧ (async_run_update_rows demoLoads demoOracleFam ["A", "B", "C"]
        [2, 0, 1]).map Prod.fst = List.range 3 :=
  c6_emission_indices_cover_range demoLoads demoOracleFam ["A", "B", "C"]
    [2, 0, 1] 3 (by decide)

end ScannerApp

namespace ScannerApp

/-- Each scheduler step preserves the sum of the in-flight count and
the semaphore counter. -/
theorem dstep_invariant {s t : DispatchState} (h : DStep s t) :
    inflightCount t + t.avail = inflightCount s + s.avail := by
  cases h with
  | acquire a l r =>
    simp [inflightCount, List.count_append, List.count_cons]
    omega
  | release a l r =>
    simp [inflightCount, List.count_append, List.count_cons]
    omega

/-- In every reachable state the in-flight count and the semaphore
counter add up to the gate's capacity. -/
theorem reachable_invariant (n limit : ℕ) (s : DispatchState)
    (h : ReachableState n limit s) :
    inflightCount s + s.avail = limit := by
  induction h with
  | refl => simp [inflightCount, initState, List.count_replicate]
  | tail _ hstep ih => rw [dstep_invariant hstep]; exact ih

/-- C9: at no reachable instant of a batch do more than the gate's
capacity of classification tasks hold the admission gate — and since
`async with semaphore` (line 101) encloses the whole network call, a
task performs network I/O only while holding the gate, so at most
`limit` (default `MAX_CONCURRENT_REQUESTS = 5`) requests are in flight
simultaneously; tasks beyond the limit stay `pending` (no `acquire`
step exists for them while the counter is zero). -/
theorem c9_admission_gate_bounds_inflight (n limit : ℕ) (s : DispatchState)
    (h : ReachableState n limit s) : inflightCount s ≤ limit := by
  have := reachable_invariant n limit s h
  omega

/-- Witness for C9: the state of a three-item batch after one task
acquired the default-capacity gate. -/
theorem c9_admission_gate_bounds_inflight_witness :
    inflightCount ⟨4, [TaskPhase.inflight, TaskPhase.pending, TaskPhase.pending]⟩ ≤
      MAX_CONCURRENT_REQUESTS :=
  c9_admission_gate_bounds_inflight 3 MAX_CONCURRENT_REQUESTS
    ⟨4, [TaskPhase.inflight, TaskPhase.pending, TaskPhase.pending]⟩
    (Relation.ReflTransGen.single
      (DStep.acquire 4 [] [TaskPhase.pending, TaskPhase.pending]))

/-- Reduction rule for a bind on a successful `Except` value. -/
theorem except_bind_ok {α β ε : Type} (x : α) (f : α → Except ε β) :
    (Except.ok x >>= f) = f x := rfl

/-- Reduction rule for a bind on a raised `Except` value. -/
theorem except_bind_error {α β ε : Type} (e : ε) (f : α → Except ε β) :
    ((Except.error e : Except ε α) >>= f) = Except.error e := rfl

/-- Reduction rule for a bind on a present `Option` value. -/
theorem option_some_bind {α β : Type} (x : α) (f : α → Option β) :
    ((some x : Option α) >>= f) = f x := rfl

/-- Reduction rule for a bind on a missing `Option` value. -/
theorem option_none_bind {α β : Type} (f : α → Option β) :
    ((none : Option α) >>= f) = none := rfl

/-- Reduction rule for `pure` in the `Except` monad. -/
theorem except_pure_eq_ok {α ε : Type} (x : α) :
    (pure x : Except ε α) = Except.ok x := rfl

/-- The exception-model retry loop never propagates an exception and
agrees with the pure rendering (whatever the backoff delay, which does
not affect the returned value). -/
theorem safe_postE_from_ok (oracle : ℕ → AttemptOutcome) :
    ∀ fuel attempt delay,
      safe_postE_from oracle attempt fuel =
        Except.ok (safe_post_from oracle delay attempt fuel).1 := by
  intro fuel
  induction fuel with
  | zero => intro attempt delay; rfl
  | succ f ih =>
    intro attempt delay
    cases ho : oracle attempt with
    | exn =>
      simp only [safe_postE_from, safe_post_bodyE, postAttemptE, ho,
        safe_post_from, Except.tryCatch, except_bind_error]
      exact ih (attempt + 1) delay
    | status code body =>
      by_cases hc : code = 429
      · subst hc
        simp only [safe_postE_from, safe_post_bodyE, postAttemptE, ho,
          safe_post_from, Except.tryCatch, except_bind_ok, if_pos rfl]
        exact ih (attempt + 1) delay
      · simp only [safe_postE_from, safe_post_bodyE, postAttemptE, ho,
          safe_post_from, Except.tryCatch, except_bind_ok, if_neg hc]
        rfl

/-- The exception-model try-block agrees with the pure rendering:
it returns exactly when `parse_block` does, and raises exactly when
`parse_block` takes the except-branch. -/
theorem parse_blockE_eq (loads : String → Option Json) (t : String) :
    parse_blockE loads t =
      match parse_block loads t with
      | some sr => Except.ok sr
      | none => Except.error PyEx.parse := by
  cases he : envelopeContent loads t with
  | none =>
    simp [parse_blockE, parse_block, envelopeContentE, he, except_bind_error,
      except_bind_ok, option_none_bind, option_some_bind]
  | some text =>
    cases hl : loads text with
    | none =>
      simp [parse_blockE, parse_block, envelopeContentE, he, hl,
        except_bind_error, except_bind_ok, option_none_bind, option_some_bind]
    | some j =>
      cases j <;>
        simp [parse_blockE, parse_block, envelopeContentE, he, hl,
          except_bind_error, except_bind_ok, option_none_bind, option_some_bind,
          except_pure_eq_ok]

/-- C8: the classifier never raises past its boundary.  In the
exception-level rendering of lines 77-116, where `session.post`,
`resp.text()`, `json.loads`, every subscript and `.get` can raise and
each `try/except` of the source is an explicit catch, the classifier
always returns `Except.ok` — and the value it returns is exactly the
classification triple of the pure model, for every item name, every
`json.loads` behaviour and every remote-service behaviour (any status
sequence, any bodies, any transport exceptions). -/
theorem c8_classify_never_raises (loads : String → Option Json)
    (oracle : ℕ → AttemptOutcome) (software_name : String) :
    check_software_riskE loads oracle software_name =
      Except.ok (check_software_risk_async loads oracle software_name).1 := by
  unfold check_software_riskE check_software_risk_async safe_post
  rw [safe_postE_from_ok oracle MAX_RETRIES 0 RETRY_DELAY]
  cases hp : safe_post_from oracle RETRY_DELAY 0 MAX_RETRIES with
  | mk res evs =>
    obtain ⟨status, text⟩ := res
    by_cases hs : status = some 200
    · subst hs
      cases hpb : parse_block loads text with
      | none =>
        simp [except_bind_ok, parse_blockE_eq, hpb, parse_response,
          Except.tryCatch, except_pure_eq_ok]
      | some sr =>
        simp [except_bind_ok, parse_blockE_eq, hpb, parse_response,
          Except.tryCatch, except_pure_eq_ok]
    · simp [hs, except_bind_ok, except_pure_eq_ok]

end ScannerApp

namespace ScannerApp

/-- Fuel sufficiency for the binary logarithm: with `n ≤ fuel` the
fuel never runs out and the result brackets `n` between consecutive
powers of two. -/
theorem log2fuel_bounds :
    ∀ fuel n, 1 ≤ n → n ≤ fuel →
      2 ^ log2fuel fuel n ≤ n ∧ n < 2 ^ (log2fuel fuel n + 1) := by
  intro fuel
  induction fuel with
  | zero => intro n h1 h2; omega
  | succ f ih =>
    intro n h1 h2
    by_cases hn : n ≤ 1
    · have hone : n = 1 := by omega
      subst hone
      simp [log2fuel]
    · have hrec := ih (n / 2) (by omega) (by omega)
      simp only [log2fuel, if_neg hn]
      set L := log2fuel f (n / 2) with hL
      constructor
      · have h2L : 2 ^ L ≤ n / 2 := hrec.1
        have : 2 ^ (L + 1) = 2 * 2 ^ L := by ring
        omega
      · have h2U : n / 2 < 2 ^ (L + 1) := hrec.2
        have : 2 ^ (L + 1 + 1) = 2 * 2 ^ (L + 1) := by ring
        omega

/-- Bracketing property of `natLog2`. -/
theorem natLog2_bounds (n : ℕ) (h : 1 ≤ n) :
    2 ^ natLog2 n ≤ n ∧ n < 2 ^ (natLog2 n + 1) :=
  log2fuel_bounds n n h (Nat.le_refl n)

/-- Splitting an integer power of two into a quotient of natural
powers through `Int.toNat`. -/
theorem two_zpow_toNat_div (s : ℤ) :
    (2 : ℚ) ^ s = (2 : ℚ) ^ s.toNat / (2 : ℚ) ^ (-s).toNat := by
  cases s with
  | ofNat a =>
    simp [Int.toNat_ofNat, zpow_natCast]
  | negSucc a =>
    have h1 : (Int.negSucc a).toNat = 0 := rfl
    have h2 : (-(Int.negSucc a)).toNat = a + 1 := rfl
    rw [h1, h2, pow_zero]
    rw [show (Int.negSucc a) = -((a : ℤ) + 1) from rfl, zpow_neg, one_div]
    congr 1
    rw [show ((a : ℤ) + 1) = ((a + 1 : ℕ) : ℤ) by push_cast; ring, zpow_natCast]

/-- The fraction fed to the rounder equals the represented rational
times the scaling power of two. -/
theorem cast_ratio_eq (n d : ℕ) (s : ℤ) (hd : 0 < d) :
    ((n * 2 ^ s.toNat : ℕ) : ℚ) / ((d * 2 ^ (-s).toNat : ℕ) : ℚ) =
      ((n : ℚ) / d) * (2 : ℚ) ^ s := by
  rw [two_zpow_toNat_div, div_mul_div_comm]
  push_cast
  ring_nf

/-- Transfer of the comparison `2 ^ e ≤ n / d` to natural-number
arithmetic. -/
theorem zpow_le_div_iff_nat (n d : ℕ) (e : ℤ) (hd : 0 < d) :
    (2 : ℚ) ^ e ≤ (n : ℚ) / d ↔ d * 2 ^ e.toNat ≤ n * 2 ^ (-e).toNat := by
  have hd' : (0 : ℚ) < d := by exact_mod_cast hd
  have hb : (0 : ℚ) < (2 : ℚ) ^ (-e).toNat := by positivity
  rw [two_zpow_toNat_div, div_le_div_iff hb hd']
  rw [show (2 : ℚ) ^ e.toNat * d = ((2 ^ e.toNat * d : ℕ) : ℚ) by push_cast; ring]
  rw [show (n : ℚ) * (2 : ℚ) ^ (-e).toNat = ((n * 2 ^ (-e).toNat : ℕ) : ℚ) by
    push_cast; ring]
  rw [Nat.cast_le, Nat.mul_comm (2 ^ e.toNat) d]

end ScannerApp

namespace ScannerApp

/-- Correctness of the exponent finder: `qExpND n d` brackets `n / d`
between consecutive integer powers of two. -/
theorem qExpND_correct (n d : ℕ) (hn : 1 ≤ n) (hd : 1 ≤ d) :
    (2 : ℚ) ^ qExpND n d ≤ (n : ℚ) / d ∧
      (n : ℚ) / d < (2 : ℚ) ^ (qExpND n d + 1) := by
  have hbn := natLog2_bounds n hn
  have hbd := natLog2_bounds d hd
  have hd' : (0 : ℚ) < d := by exact_mod_cast hd
  have hbnQ1 : (2 : ℚ) ^ natLog2 n ≤ n := by exact_mod_cast hbn.1
  have hbnQ2 : (n : ℚ) < 2 ^ (natLog2 n + 1) := by exact_mod_cast hbn.2
  have hbdQ1 : (2 : ℚ) ^ natLog2 d ≤ d := by exact_mod_cast hbd.1
  have hbdQ2 : (d : ℚ) < 2 ^ (natLog2 d + 1) := by exact_mod_cast hbd.2
  rw [qExpND]
  set e0 : ℤ := (natLog2 n : ℤ) - (natLog2 d : ℤ) with he0
  by_cases hcond : d * 2 ^ e0.toNat ≤ n * 2 ^ (-e0).toNat
  · rw [if_pos hcond]
    refine ⟨(zpow_le_div_iff_nat n d e0 (by omega)).mpr hcond, ?_⟩
    have hsplit : (2 : ℚ) ^ (e0 + 1) =
        (2 : ℚ) ^ (natLog2 n + 1) / (2 : ℚ) ^ natLog2 d := by
      rw [he0, show (natLog2 n : ℤ) - (natLog2 d : ℤ) + 1 =
          ((natLog2 n + 1 : ℕ) : ℤ) - ((natLog2 d : ℕ) : ℤ) by push_cast; ring]
      rw [zpow_sub₀ (by norm_num : (2 : ℚ) ≠ 0), zpow_natCast, zpow_natCast]
    rw [hsplit, div_lt_div_iff hd' (by positivity)]
    have hp1 : (0 : ℚ) < (2 : ℚ) ^ natLog2 d := by positivity
    have hp2 : (0 : ℚ) < (2 : ℚ) ^ (natLog2 n + 1) := by positivity
    nlinarith [hbnQ2, hbdQ1]
  · rw [if_neg hcond]
    have hnle : ¬ ((2 : ℚ) ^ e0 ≤ (n : ℚ) / d) := fun hcl =>
      hcond ((zpow_le_div_iff_nat n d e0 (by omega)).mp hcl)
    have hlt := not_le.mp hnle
    constructor
    · have hsplit : (2 : ℚ) ^ (e0 - 1) =
          (2 : ℚ) ^ natLog2 n / (2 : ℚ) ^ (natLog2 d + 1) := by
        rw [he0, show (natLog2 n : ℤ) - (natLog2 d : ℤ) - 1 =
            ((natLog2 n : ℕ) : ℤ) - ((natLog2 d + 1 : ℕ) : ℤ) by push_cast; ring]
        rw [zpow_sub₀ (by norm_num : (2 : ℚ) ≠ 0), zpow_natCast, zpow_natCast]
      rw [hsplit, div_le_div_iff (by positivity) hd']
      have hp1 : (0 : ℚ) < (2 : ℚ) ^ natLog2 n := by positivity
      have hp2 : (0 : ℚ) < (2 : ℚ) ^ (natLog2 d + 1) := by positivity
      nlinarith [hbnQ1, hbdQ2]
    · rw [show e0 - 1 + 1 = e0 by ring]
      exact hlt

/-- The nearest-even integer rounder is within half of its input. -/
theorem nearEven_err (A B : ℕ) (hB : 0 < B) :
    |((nearEven A B : ℕ) : ℚ) - (A : ℚ) / B| ≤ 1 / 2 := by
  have hB' : (0 : ℚ) < B := by exact_mod_cast hB
  have hmod := Nat.div_add_mod A B
  have hrB : A % B < B := Nat.mod_lt A hB
  have hA : (A : ℚ) = (B : ℚ) * (A / B : ℕ) + (A % B : ℕ) := by
    exact_mod_cast hmod.symm
  have hAq : (A : ℚ) / B = ((A / B : ℕ) : ℚ) + ((A % B : ℕ) : ℚ) / B := by
    rw [hA]; field_simp; ring
  have ht0 : (0 : ℚ) ≤ ((A % B : ℕ) : ℚ) / B := by positivity
  have ht1 : ((A % B : ℕ) : ℚ) / B < 1 := by
    rw [div_lt_one hB']; exact_mod_cast hrB
  simp only [nearEven]
  split_ifs with h1 h2 h3
  · rw [hAq, show ((A / B : ℕ) : ℚ) - (((A / B : ℕ) : ℚ) +
        ((A % B : ℕ) : ℚ) / B) = -(((A % B : ℕ) : ℚ) / B) by ring,
      abs_neg, abs_of_nonneg ht0]
    rw [div_le_div_iff hB' (by norm_num : (0 : ℚ) < 2)]
    have : ((2 * (A % B) : ℕ) : ℚ) ≤ ((B : ℕ) : ℚ) := by
      exact_mod_cast Nat.le_of_lt h1
    push_cast at this
    linarith
  · have hBr : (B : ℚ) < 2 * ((A % B : ℕ) : ℚ) := by exact_mod_cast h2
    have hhalf : 1 / 2 < ((A % B : ℕ) : ℚ) / B := by
      rw [div_lt_div_iff (by norm_num : (0 : ℚ) < 2) hB']
      linarith
    rw [hAq]
    push_cast
    rw [show ((A / B : ℕ) : ℚ) + 1 - (((A / B : ℕ) : ℚ) +
        ((A % B : ℕ) : ℚ) / B) = 1 - ((A % B : ℕ) : ℚ) / B by ring]
    rw [abs_of_nonneg (by linarith)]
    linarith
  · have htie : 2 * (A % B) = B := by omega
    have hhalf : ((A % B : ℕ) : ℚ) / B = 1 / 2 := by
      have : (B : ℚ) = 2 * ((A % B : ℕ) : ℚ) := by exact_mod_cast htie.symm
      rw [this]
      have hr0 : (0 : ℚ) < ((A % B : ℕ) : ℚ) := by
        by_contra hc
        push_neg at hc
        have : ((A % B : ℕ) : ℚ) = 0 := le_antisymm hc (by positivity)
        rw [this] at *
        simp at *
        linarith
      field_simp
      ring
    rw [hAq, hhalf, show ((A / B : ℕ) : ℚ) - (((A / B : ℕ) : ℚ) + 1 / 2) =
        -(1 / 2) by ring, abs_neg, abs_of_nonneg (by norm_num)]
  · have htie : 2 * (A % B) = B := by omega
    have hhalf : ((A % B : ℕ) : ℚ) / B = 1 / 2 := by
      have hBc : (B : ℚ) = 2 * ((A % B : ℕ) : ℚ) := by exact_mod_cast htie.symm
      have hr0 : (0 : ℚ) < ((A % B : ℕ) : ℚ) := by
        have : 0 < A % B := by omega
        exact_mod_cast this
      rw [hBc]
      field_simp
      ring
    rw [hAq, hhalf]
    push_cast
    rw [show ((A / B : ℕ) : ℚ) + 1 - (((A / B : ℕ) : ℚ) + 1 / 2) =
        1 / 2 by ring, abs_of_nonneg (by norm_num)]

end ScannerApp

namespace ScannerApp

/-- Numeric value of the relative-error unit. -/
theorem two_zpow_neg53 : (2 : ℚ) ^ (-53 : ℤ) = 1 / 2 ^ 53 := by
  rw [show (-53 : ℤ) = -((53 : ℕ) : ℤ) by norm_num, zpow_neg, zpow_natCast,
    one_div]

/-- Unfolding of the represented value on a mantissa-exponent pair. -/
theorem repVal_mk (m : ℕ) (e : ℤ) :
    repVal (m, e) = (m : ℚ) * (2 : ℚ) ^ (e - 52) := rfl

/-- Unfolding of the 53-bit rounder. -/
theorem rnd53_eq (n d : ℕ) :
    rnd53 n d = (nearEven (n * 2 ^ (52 - qExpND n d).toNat)
      (d * 2 ^ (qExpND n d - 52).toNat), qExpND n d) := rfl

/-- Half-ulp error bound of the 53-bit rounder, in relative form:
rounding `n / d` changes it by at most `n / d * 2 ^ (-53)`. -/
theorem rnd53_err (n d : ℕ) (hn : 1 ≤ n) (hd : 1 ≤ d) :
    |repVal (rnd53 n d) - (n : ℚ) / d| ≤ ((n : ℚ) / d) * (2 : ℚ) ^ (-53 : ℤ) := by
  have hq := qExpND_correct n d hn hd
  rw [rnd53_eq, repVal_mk]
  set e := qExpND n d with he
  set A := n * 2 ^ (52 - e).toNat with hA
  set B := d * 2 ^ (e - 52).toNat with hB2
  have hBpos : 0 < B := Nat.mul_pos (by omega) (pow_pos (by omega) _)
  have hABval : (A : ℚ) / B = ((n : ℚ) / d) * (2 : ℚ) ^ (52 - e) := by
    rw [hA, hB2, show (e - 52 : ℤ) = -(52 - e) by ring]
    exact cast_ratio_eq n d (52 - e) (by omega)
  have hnd : (n : ℚ) / d = (A : ℚ) / B * (2 : ℚ) ^ (e - 52) := by
    rw [hABval, mul_assoc, ← zpow_add₀ (by norm_num : (2 : ℚ) ≠ 0)]
    simp
  have h2pos : (0 : ℚ) < (2 : ℚ) ^ (e - 52) := by positivity
  have hmain : |((nearEven A B : ℕ) : ℚ) * (2 : ℚ) ^ (e - 52) - (n : ℚ) / d| ≤
      (1 / 2) * (2 : ℚ) ^ (e - 52) := by
    rw [hnd, show ((nearEven A B : ℕ) : ℚ) * (2 : ℚ) ^ (e - 52) -
        (A : ℚ) / B * (2 : ℚ) ^ (e - 52) =
        (((nearEven A B : ℕ) : ℚ) - (A : ℚ) / B) * (2 : ℚ) ^ (e - 52) by ring]
    rw [abs_mul, abs_of_pos h2pos]
    exact mul_le_mul_of_nonneg_right (nearEven_err A B hBpos) (le_of_lt h2pos)
  have hfinal : (1 / 2) * (2 : ℚ) ^ (e - 52) ≤
      ((n : ℚ) / d) * (2 : ℚ) ^ (-53 : ℤ) := by
    have h1 : (1 / 2 : ℚ) * (2 : ℚ) ^ (e - 52) =
        (2 : ℚ) ^ e * (2 : ℚ) ^ (-53 : ℤ) := by
      rw [show (1 / 2 : ℚ) = (2 : ℚ) ^ (-1 : ℤ) by norm_num,
        ← zpow_add₀ (by norm_num : (2 : ℚ) ≠ 0),
        ← zpow_add₀ (by norm_num : (2 : ℚ) ≠ 0)]
      congr 1
      ring
    rw [h1]
    exact mul_le_mul_of_nonneg_right hq.1 (by positivity)
  linarith [hmain, hfinal]

/-- The rounded mantissa of a positive quotient is positive. -/
theorem rnd53_mantissa_pos (n d : ℕ) (hn : 1 ≤ n) (hd : 1 ≤ d) :
    1 ≤ (rnd53 n d).1 := by
  by_contra hc
  push_neg at hc
  have hm0 : (rnd53 n d).1 = 0 := by omega
  have herr := rnd53_err n d hn hd
  have hrv : repVal (rnd53 n d) = 0 := by
    have : repVal (rnd53 n d) =
        ((rnd53 n d).1 : ℚ) * (2 : ℚ) ^ ((rnd53 n d).2 - 52) := rfl
    rw [this, hm0]
    simp
  rw [hrv, zero_sub, abs_neg] at herr
  have hx : (0 : ℚ) < (n : ℚ) / d := by
    apply div_pos <;> [exact_mod_cast hn; exact_mod_cast hd]
  rw [abs_of_pos hx] at herr
  rw [two_zpow_neg53] at herr
  nlinarith [hx, herr]

/-- Value of the exact fraction fed to the rounder by `pyMulIntRep`. -/
theorem pyMulIntRep_frac (m : ℕ) (e : ℤ) (c : ℕ) :
    ((m * c * 2 ^ (e - 52).toNat : ℕ) : ℚ) / ((2 ^ (52 - e).toNat : ℕ) : ℚ) =
      repVal (m, e) * (c : ℚ) := by
  have h := cast_ratio_eq (m * c) 1 (e - 52) (by omega)
  rw [show (-(e - 52) : ℤ) = 52 - e by ring] at h
  simp only [one_mul, Nat.cast_one, div_one] at h
  rw [h, repVal_mk]
  push_cast
  ring

/-- Truncation of a represented value is its natural floor. -/
theorem pyTruncRep_floor (m : ℕ) (e : ℤ) :
    pyTruncRep (m, e) = ⌊repVal (m, e)⌋₊ := by
  have hval : repVal (m, e) =
      ((m * 2 ^ (e - 52).toNat : ℕ) : ℚ) / ((2 ^ (52 - e).toNat : ℕ) : ℚ) := by
    have h := cast_ratio_eq m 1 (e - 52) (by omega)
    rw [show (-(e - 52) : ℤ) = 52 - e by ring] at h
    simp only [one_mul, Nat.cast_one, div_one] at h
    rw [repVal_mk, ← h]
  have hdef : pyTruncRep (m, e) =
      m * 2 ^ (e - 52).toNat / 2 ^ (52 - e).toNat := rfl
  rw [hdef, hval]
  exact (Nat.floor_div_nat ((m * 2 ^ (e - 52).toNat : ℕ) : ℚ)
    (2 ^ (52 - e).toNat)).symm

end ScannerApp


namespace ScannerApp

/-- Unfolding `progress_py` to the floor of the represented value of
its final rounding. -/
theorem progress_py_floor (k N : ℕ) :
    progress_py k N = ⌊repVal (rnd53
      ((rnd53 k N).1 * 100 * 2 ^ ((rnd53 k N).2 - 52).toNat)
      (2 ^ (52 - (rnd53 k N).2).toNat))⌋₊ := by
  unfold progress_py pyDivRep pyMulIntRep
  exact pyTruncRep_floor _ _

/-- Band property of the double-precision progress value: it equals
the exact floor `100 * k / N`, except possibly one below it, and the
deficit can only occur when `100 * k / N` is an exact integer. -/
theorem progress_py_band (k N : ℕ) (hk : 1 ≤ k) (hkN : k ≤ N)
    (hN : N ≤ 2 ^ 40) :
    progress_py k N = 100 * k / N ∨
      (progress_py k N + 1 = 100 * k / N ∧ N ∣ 100 * k) := by
  have hN1 : 1 ≤ N := le_trans hk hkN
  have hm1 : 1 ≤ (rnd53 k N).1 := rnd53_mantissa_pos k N hk hN1
  have h1 := rnd53_err k N hk hN1
  have hn2pos : 1 ≤ (rnd53 k N).1 * 100 * 2 ^ ((rnd53 k N).2 - 52).toNat :=
    Nat.mul_pos (Nat.mul_pos hm1 (by omega)) (pow_pos (by omega) _)
  have hd2pos : (1 : ℕ) ≤ 2 ^ (52 - (rnd53 k N).2).toNat :=
    Nat.one_le_two_pow
  have h2 := rnd53_err _ _ hn2pos hd2pos
  rw [pyMulIntRep_frac (rnd53 k N).1 (rnd53 k N).2 100] at h2
  rw [show ((rnd53 k N).1, (rnd53 k N).2) = rnd53 k N from rfl] at h2
  have hfloor := progress_py_floor k N
  generalize hzdef : repVal (rnd53
      ((rnd53 k N).1 * 100 * 2 ^ ((rnd53 k N).2 - 52).toNat)
      (2 ^ (52 - (rnd53 k N).2).toNat)) = z at h2 hfloor
  generalize hydef : repVal (rnd53 k N) = y at h1 h2
  push_cast at h2
  rw [two_zpow_neg53] at h1 h2
  have ha1 := abs_le.mp h1
  have ha2 := abs_le.mp h2
  have hNQ : (0 : ℚ) < N := by exact_mod_cast hN1
  have hxpos : (0 : ℚ) < (k : ℚ) / N :=
    div_pos (by exact_mod_cast hk) hNQ
  have hx1 : (k : ℚ) / N ≤ 1 := by
    rw [div_le_one hNQ]; exact_mod_cast hkN
  have hE : |z - 100 * ((k : ℚ) / N)| ≤ 100 / 2 ^ 51 := by
    rw [abs_le]
    constructor <;> nlinarith [ha1.1, ha1.2, ha2.1, ha2.2, hxpos, hx1]
  have habs := abs_le.mp hE
  have hElt1 : (100 : ℚ) / 2 ^ 51 < 1 := by norm_num
  by_cases hdvd : N ∣ 100 * k
  · have hM : (100 : ℚ) * ((k : ℚ) / N) = ((100 * k / N : ℕ) : ℚ) := by
      obtain ⟨c, hc⟩ := hdvd
      have hFc : 100 * k / N = c := by
        rw [hc, Nat.mul_div_cancel_left c (by omega : 0 < N)]
      rw [hFc, show (100 : ℚ) * ((k : ℚ) / N) = ((100 * k : ℕ) : ℚ) / N by
        push_cast; ring, hc]
      push_cast
      rw [mul_comm (N : ℚ) (c : ℚ), mul_div_assoc, div_self (ne_of_gt hNQ),
        mul_one]
    rw [hM] at habs
    have hF1 : 1 ≤ 100 * k / N :=
      (Nat.one_le_div_iff (by omega : 0 < N)).mpr
        (Nat.le_of_dvd (by omega) hdvd)
    have hFQ1 : (1 : ℚ) ≤ ((100 * k / N : ℕ) : ℚ) := by exact_mod_cast hF1
    have hzge0 : (0 : ℚ) ≤ z := by linarith [habs.1]
    by_cases hzF : ((100 * k / N : ℕ) : ℚ) ≤ z
    · left
      rw [hfloor]
      refine (Nat.floor_eq_iff hzge0).mpr ⟨hzF, ?_⟩
      linarith [habs.2]
    · right
      push_neg at hzF
      refine ⟨?_, hdvd⟩
      rw [hfloor]
      have hfl : ⌊z⌋₊ = 100 * k / N - 1 := by
        refine (Nat.floor_eq_iff hzge0).mpr ⟨?_, ?_⟩
        · rw [Nat.cast_sub hF1]
          push_cast
          linarith [habs.1]
        · rw [Nat.cast_sub hF1]
          push_cast
          linarith [hzF]
      omega
  · left
    have hmodne : 100 * k % N ≠ 0 := fun hc => hdvd (Nat.dvd_of_mod_eq_zero hc)
    have hdm := Nat.div_add_mod (100 * k) N
    have hrlo : 1 ≤ 100 * k % N := by omega
    have hrhi : 100 * k % N < N := Nat.mod_lt _ (by omega)
    have hxF : (100 : ℚ) * ((k : ℚ) / N) =
        ((100 * k / N : ℕ) : ℚ) + ((100 * k % N : ℕ) : ℚ) / N := by
      rw [show (100 : ℚ) * ((k : ℚ) / N) = ((100 * k : ℕ) : ℚ) / N by
        push_cast; ring]
      rw [show ((100 * k : ℕ) : ℚ) =
          (N : ℚ) * ((100 * k / N : ℕ) : ℚ) + ((100 * k % N : ℕ) : ℚ) by
        exact_mod_cast hdm.symm]
      field_simp
      ring
    rw [hxF] at habs
    have hr1 : (1 : ℚ) / N ≤ ((100 * k % N : ℕ) : ℚ) / N := by
      rw [div_le_div_right hNQ]
      exact_mod_cast hrlo
    have hr2 : ((100 * k % N : ℕ) : ℚ) / N ≤ 1 - 1 / N := by
      rw [show (1 : ℚ) - 1 / N = ((N : ℚ) - 1) / N by field_simp]
      rw [div_le_div_right hNQ]
      have : ((100 * k % N : ℕ) : ℚ) + 1 ≤ N := by exact_mod_cast hrhi
      linarith
    have hE2 : (100 : ℚ) / 2 ^ 51 < 1 / N := by
      have h40 : (1 : ℚ) / 2 ^ 40 ≤ 1 / N := by
        apply one_div_le_one_div_of_le hNQ
        exact_mod_cast hN
      have : (100 : ℚ) / 2 ^ 51 < 1 / 2 ^ 40 := by norm_num
      linarith
    have hF0 : (0 : ℚ) ≤ ((100 * k / N : ℕ) : ℚ) := Nat.cast_nonneg _
    have hzge0 : (0 : ℚ) ≤ z := by linarith [habs.1, hr1, hE2]
    rw [hfloor]
    refine (Nat.floor_eq_iff hzge0).mpr ⟨?_, ?_⟩
    · linarith [habs.1, hr1, hE2]
    · linarith [habs.2, hr2, hE2]

end ScannerApp

namespace ScannerApp

/-- Dividing any positive `N` by itself rounds to exactly one. -/
theorem rnd53_self (N : ℕ) (hN : 1 ≤ N) : rnd53 N N = (2 ^ 52, 0) := by
  have he : qExpND N N = 0 := by
    rw [qExpND]
    rw [sub_self]
    norm_num
  rw [rnd53_eq, he]
  rw [show ((52 : ℤ) - 0).toNat = 52 from rfl,
    show ((0 : ℤ) - 52).toNat = 0 from rfl]
  rw [pow_zero, mul_one]
  simp only [nearEven]
  rw [Nat.mul_div_cancel_left _ (by omega : 0 < N), Nat.mul_mod_right]
  rw [if_pos (by omega : 2 * 0 < N)]

/-- The final progress emission is exactly 100 for every batch size:
`int((N/N)*100) = 100` in binary64. -/
theorem progress_py_total (N : ℕ) (hN : 1 ≤ N) : progress_py N N = 100 := by
  unfold progress_py pyDivRep
  rw [rnd53_self N hN]
  decide

/-- The double-precision progress sequence is non-decreasing. -/
theorem progress_py_mono_step (k N : ℕ) (hk : 1 ≤ k) (hkN : k < N)
    (hN : N ≤ 2 ^ 40) :
    progress_py k N ≤ progress_py (k + 1) N := by
  have hb1 := progress_py_band k N hk (le_of_lt hkN) hN
  have hb2 := progress_py_band (k + 1) N (by omega) hkN hN
  have hF12 : 100 * k / N ≤ 100 * (k + 1) / N :=
    Nat.div_le_div_right (by omega)
  rcases hb2 with h2 | ⟨h2, hdvd2⟩
  · rcases hb1 with h1 | ⟨h1, _⟩ <;> omega
  · have hexact : N * (100 * (k + 1) / N) = 100 * (k + 1) :=
      Nat.mul_div_cancel' hdvd2
    have hlt : 100 * k / N < 100 * (k + 1) / N := by
      rw [Nat.div_lt_iff_lt_mul (by omega : 0 < N)]
      calc 100 * k < 100 * (k + 1) := by omega
        _ = N * (100 * (k + 1) / N) := hexact.symm
        _ = (100 * (k + 1) / N) * N := Nat.mul_comm _ _
    rcases hb1 with h1 | ⟨h1, _⟩ <;> omega

/-- The i-th progress emission of a batch of `N` items is the
double-precision value for `i + 1` completed items. -/
theorem async_run_progress_getD (N i : ℕ) (hi : i < N) :
    (async_run_progress N).getD i 0 = progress_py (i + 1) N := by
  rw [async_run_progress, List.getD_eq_getElem?_getD, List.getElem?_map,
    List.getElem?_range hi]
  rfl

/-- C7, counterexample: for a batch of 100 items the 29th progress
emission is 28, not `floor(100 * 29 / 100) = 29` — Python evaluates
`int((29/100)*100)` in binary64, `29/100` rounds to slightly below
0.29, the product rounds to 28.999999999999996, and `int()` truncates
to 28. -/
theorem c7_progress_floor_cex :
    (async_run_progress 100).getD 28 0 = 28 ∧ 100 * 29 / 100 = 29 ∧
      (28 : ℕ) ≠ 29 := by
  refine ⟨?_, by norm_num, by norm_num⟩
  rw [async_run_progress_getD 100 28 (by norm_num)]
  decide

/-- C7 as amended: for every batch of `N > 0` items (any feasible
size, `N ≤ 2^40`), the progress emissions are the binary64 evaluations
`int(100 * (completed / total))`; each value equals
`floor(100 * completed / total)` or falls exactly one below it, the
deficit occurring only when `100 * completed` is an exact multiple of
`total` (so all values lie in `[0, 100]`); the sequence is
non-decreasing; and the final (N-th) emission is exactly 100. -/
theorem c7_progress_amended (N k : ℕ) (hk : 1 ≤ k) (hkN : k ≤ N)
    (hN : N ≤ 2 ^ 40) :
    ((async_run_progress N).getD (k - 1) 0 = 100 * k / N ∨
      ((async_run_progress N).getD (k - 1) 0 + 1 = 100 * k / N ∧
        N ∣ 100 * k))
    ∧ (async_run_progress N).getD (k - 1) 0 ≤ 100
    ∧ (k < N →
        (async_run_progress N).getD (k - 1) 0 ≤
          (async_run_progress N).getD k 0)
    ∧ (async_run_progress N).getD (N - 1) 0 = 100 := by
  have hg1 : (async_run_progress N).getD (k - 1) 0 = progress_py k N := by
    rw [async_run_progress_getD N (k - 1) (by omega)]
    congr 1
    omega
  have hband := progress_py_band k N hk hkN hN
  have hbound : progress_py k N ≤ 100 := by
    have hF : 100 * k / N ≤ 100 := by
      have hkk : 100 * k ≤ 100 * N := by omega
      calc 100 * k / N ≤ 100 * N / N := Nat.div_le_div_right hkk
        _ = 100 := Nat.mul_div_cancel _ (by omega : 0 < N)
    omega
  refine ⟨by rw [hg1]; exact hband, by rw [hg1]; exact hbound, ?_, ?_⟩
  · intro hkN'
    have hg2 : (async_run_progress N).getD k 0 = progress_py (k + 1) N := by
      rw [async_run_progress_getD N k hkN']
    rw [hg1, hg2]
    exact progress_py_mono_step k N hk hkN' hN
  · rw [async_run_progress_getD N (N - 1) (by omega),
      show N - 1 + 1 = N by omega]
    exact progress_py_total N (by omega)

/-- Witness for C7's amended theorem on a four-item batch at its
second emission. -/
theorem c7_progress_amended_witness :
    ((async_run_progress 4).getD 1 0 = 100 * 2 / 4 ∨
      ((async_run_progress 4).getD 1 0 + 1 = 100 * 2 / 4 ∧ 4 ∣ 100 * 2))
    ∧ (async_run_progress 4).getD 1 0 ≤ 100
    ∧ (2 < 4 →
        (async_run_progress 4).getD 1 0 ≤ (async_run_progress 4).getD 2 0)
    ∧ (async_run_progress 4).getD 3 0 = 100 :=
  c7_progress_amended 4 2 (by norm_num) (by norm_num) (by norm_num)

end ScannerApp
